import Mathlib

/-!
Verification of the cache subsystem of the LeetCode progress-tracker
repository: the server-side `CacheService` (stale-while-revalidate
read-through cache over a persistent key-value table) and the client-side
localStorage cache mirror (`useCachedQuery`).

The embedding follows the TypeScript source. Payloads are modelled by a
JSON-like value type `JSValue` together with JavaScript truthiness, since
the source guards several paths with bare truthiness tests
(`if (cachedData)`, `customDuration || DEFAULT`, `if (studentData)`,
`isFromCache && cachedData ? ... : ...`). Timestamps are milliseconds
since epoch as naturals (client-side ages use integers, since an age can
be negative when a stored timestamp lies in the future). Each storage
operation of the service wraps its database access in try/catch; the
possibility of a storage fault is modelled by an explicit boolean flag
per operation, and the catch branch's behaviour is embedded directly.
Asynchronous producers are zero-argument operations, so a producer is
modelled by its outcome `Except String JSValue`; the fire-and-forget
background refresh runs detached of the caller but its effect on the
store is applied, and the model counts synchronous and background
producer invocations separately.
-/

/-- JSON-compatible values as stored in cache payloads. `undefined` is
included because producers such as `getStudentDashboard` may resolve to
`undefined`. Numbers are modelled as integers (the sign/zero distinction
is what truthiness needs; NaN does not arise in the claims). -/
inductive JSValue where
  | null
  | undefined
  | boolean (b : Bool)
  | number (n : Int)
  | str (s : String)
  | arr (elems : List JSValue)
  | obj (fields : List (String × JSValue))

/-- JavaScript truthiness of a value: `null`, `undefined`, `false`, `0`
and the empty string are falsy; every array and object is truthy. -/
def truthy : JSValue → Bool
  | .null => false
  | .undefined => false
  | .boolean b => b
  | .number n => n != 0
  | .str s => s != ""
  | .arr _ => true
  | .obj _ => true

/-- A row of the `dashboard_cache` table: serialized payload plus
freshness metadata, as in `InsertDashboardCache`. -/
structure CacheEntry where
  cacheData : JSValue
  lastUpdated : Nat
  expiresAt : Nat

/-- The persistent store: rows keyed by `cacheKey`. The table has a
unique constraint on the key; the model keeps rows as an association
list and states key-uniqueness as a hypothesis where a claim needs it. -/
abbrev Store := List (String × CacheEntry)

/-- `DEFAULT_CACHE_DURATION = 15 * 60 * 1000` (15 minutes in ms). -/
def DEFAULT_CACHE_DURATION : Nat := 15 * 60 * 1000

/-- `PRODUCTION_WARMUP_LIMIT = 20`. -/
def PRODUCTION_WARMUP_LIMIT : Nat := 20

/-- The `select ... where eq(cacheKey) limit 1` query: first row whose
key matches. -/
def findEntry (st : Store) (cacheKey : String) : Option CacheEntry :=
  (st.find? (fun p => p.1 == cacheKey)).map Prod.snd

/-- `getCachedData`: returns the stored payload regardless of freshness;
returns `null` when no row exists, and `null` on a storage read fault
(the catch branch). In JavaScript a stored `null` payload and the
no-entry `return null` are indistinguishable, so the result type is
`JSValue` with `JSValue.null` as absence. -/
def getCachedData (fault : Bool) (st : Store) (cacheKey : String) : JSValue :=
  if fault then JSValue.null
  else
    match findEntry st cacheKey with
    | none => JSValue.null
    | some e => e.cacheData

/-- `isCacheExpired`: true when no row exists, otherwise
`new Date() > expiresAt` (strict); true on a storage fault. -/
def isCacheExpired (fault : Bool) (st : Store) (cacheKey : String) (now : Nat) : Bool :=
  if fault then true
  else
    match findEntry st cacheKey with
    | none => true
    | some e => decide (now > e.expiresAt)

/-- The JavaScript `customDuration || DEFAULT_CACHE_DURATION`: an absent
argument is `undefined` (falsy) and `0` is also falsy, so both select
the default. -/
def effectiveDuration (customDuration : Option Nat) : Nat :=
  match customDuration with
  | none => DEFAULT_CACHE_DURATION
  | some d => if d = 0 then DEFAULT_CACHE_DURATION else d

/-- `INSERT ... ON CONFLICT (cache_key) DO UPDATE`: overwrite the row
with this key in place if one exists, otherwise append a new row. -/
def upsert (st : Store) (cacheKey : String) (e : CacheEntry) : Store :=
  if st.any (fun p => p.1 == cacheKey) then
    st.map (fun p => if p.1 == cacheKey then (cacheKey, e) else p)
  else st ++ [(cacheKey, e)]

/-- `setCachedData`: upsert the entry with
`expiresAt = now + (customDuration || DEFAULT_CACHE_DURATION)`;
a storage write fault is caught and the call returns normally with the
store unchanged. -/
def setCachedData (fault : Bool) (st : Store) (cacheKey : String) (data : JSValue)
    (customDuration : Option Nat) (now : Nat) : Store :=
  if fault then st
  else upsert st cacheKey ⟨data, now, now + effectiveDuration customDuration⟩

/-- `clearExpiredCache`: `delete where lt(expiresAt, now)`; returns the
surviving store together with `rowCount` (the number of rows removed).
On a storage fault the catch branch returns 0 and nothing was deleted. -/
def clearExpiredCache (fault : Bool) (st : Store) (now : Nat) : Store × Nat :=
  if fault then (st, 0)
  else
    (st.filter (fun p => !decide (p.2.expiresAt < now)),
     (st.filter (fun p => decide (p.2.expiresAt < now))).length)

/-- `clearCache`: `delete where eq(cacheKey)`; a storage fault is caught
and leaves the store unchanged. -/
def clearCache (fault : Bool) (st : Store) (cacheKey : String) : Store :=
  if fault then st
  else st.filter (fun p => !(p.1 == cacheKey))

/-- `clearAllCache`: delete every row. -/
def clearAllCache (fault : Bool) (st : Store) : Store :=
  if fault then st else []

/-- `refreshCacheInBackground`: fire-and-forget refresh. A successful
producer's result is written back under the key with the default TTL; a
failing producer is caught and logged, leaving the store unchanged.
Nothing is reported back to any caller. -/
def refreshCacheInBackground (writeFault : Bool) (st : Store) (cacheKey : String)
    (fetchFreshData : Except String JSValue) (now : Nat) : Store :=
  match fetchFreshData with
  | .ok fresh => setCachedData writeFault st cacheKey fresh none now
  | .error _ => st

/-- Result of `getDataWithCache`: the value or error given to the
caller, the store after the call (including the effect of any detached
background refresh), and how many times the producer was invoked
synchronously (caller waits) versus as a background refresh. -/
structure GDWCResult where
  result : Except String (JSValue × Bool)
  store : Store
  syncCalls : Nat
  bgCalls : Nat

/-- `getDataWithCache`: read the cached payload; if it is truthy, return
it with `fromCache = true`, spawning a background refresh when the entry
is expired; otherwise (no row, falsy payload, or read fault) invoke the
producer synchronously, store its result with the default TTL and return
it with `fromCache = false`, propagating a producer failure to the
caller. -/
def getDataWithCache (readFault expiryFault writeFault : Bool) (st : Store)
    (cacheKey : String) (fetchFreshData : Except String JSValue) (now : Nat) : GDWCResult :=
  let cachedData := getCachedData readFault st cacheKey
  if truthy cachedData then
    if isCacheExpired expiryFault st cacheKey now then
      ⟨.ok (cachedData, true),
       refreshCacheInBackground writeFault st cacheKey fetchFreshData now, 0, 1⟩
    else ⟨.ok (cachedData, true), st, 0, 0⟩
  else
    match fetchFreshData with
    | .ok fresh =>
        ⟨.ok (fresh, false), setCachedData writeFault st cacheKey fresh none now, 1, 0⟩
    | .error e => ⟨.error e, st, 1, 0⟩

/-- Cache key for a student dashboard: `student_${id}`. -/
def studentKey (id : Nat) : String := "student_" ++ toString id

/-- The per-student loop of `warmUpCache`: for each selected student,
invoke `getStudentDashboard`; a failing producer is caught and logged
and the loop continues; a successful result is written only when truthy
(`if (studentData)`). -/
def warmUpStudents (studentDash : Nat → Except String JSValue) (now : Nat) :
    Store → List Nat → Store
  | st, [] => st
  | st, id :: rest =>
    match studentDash id with
    | .error _ => warmUpStudents studentDash now st rest
    | .ok d =>
      if truthy d then
        warmUpStudents studentDash now (setCachedData false st (studentKey id) d none now) rest
      else warmUpStudents studentDash now st rest

/-- `warmUpCache`: sequentially warm the four fixed dashboards, then the
first `PRODUCTION_WARMUP_LIMIT` (production) or 50 (development)
students of `getAllStudents`. A failure of a fixed-dashboard producer or
of the student listing hits the outer catch: warm-up stops there but no
error reaches the caller. Per-student failures are caught inside the
loop. -/
def warmUpCache (adminRes universityRes batch2027Res batch2028Res : Except String JSValue)
    (allStudentsRes : Except String (List Nat))
    (studentDash : Nat → Except String JSValue)
    (isProduction : Bool) (st : Store) (now : Nat) : Store :=
  match adminRes with
  | .error _ => st
  | .ok adminData =>
    let st1 := setCachedData false st "admin" adminData none now
    match universityRes with
    | .error _ => st1
    | .ok universityData =>
      let st2 := setCachedData false st1 "university" universityData none now
      match batch2027Res with
      | .error _ => st2
      | .ok batch2027Data =>
        let st3 := setCachedData false st2 "batch_2027" batch2027Data none now
        match batch2028Res with
        | .error _ => st3
        | .ok batch2028Data =>
          let st4 := setCachedData false st3 "batch_2028" batch2028Data none now
          match allStudentsRes with
          | .error _ => st4
          | .ok allStudents =>
            let studentLimit := if isProduction then PRODUCTION_WARMUP_LIMIT else 50
            warmUpStudents studentDash now st4 (allStudents.take studentLimit)

/-! ## Client-side cache mirror (`useCachedQuery`) -/

/-- Model of a string held in localStorage under the data key. Only its
JavaScript truthiness (non-emptiness) and the outcome of `JSON.parse`
on it are observable to the hook, so the model carries exactly those. -/
structure RawPayload where
  nonempty : Bool
  parsed : Except String JSValue

/-- Model of the string held under the `_timestamp` key: its truthiness
and the result of `parseInt` (`none` models NaN). -/
structure RawTimestamp where
  nonempty : Bool
  parsedInt : Option Int

/-- Observable outcome of mounting `useCachedQuery` for one key:
whether the mirror entry is still in localStorage afterwards, the
resulting React state (`cachedData`, `cacheAge`, `isFromCache`), and the
values the hook returns to the UI (`dataShown`, `isLoadingShown`,
`isErrorShown`). -/
structure MountResult where
  entryKept : Bool
  cachedData : Option JSValue
  cacheAge : Option Int
  isFromCache : Bool
  dataShown : Option JSValue
  isLoadingShown : Bool
  isErrorShown : Bool

/-- Truthiness of the `cachedData` React state (`T | null`): null state
is falsy, otherwise the stored value's own truthiness. -/
def stateTruthy : Option JSValue → Bool
  | none => false
  | some v => truthy v

/-- The mount effect of `useCachedQuery` plus the derived render values.
Follows the source exactly: the guard `if (cached && timestamp)` tests
string truthiness; `JSON.parse` throwing lands in the catch branch which
removes both keys; a parseable entry first populates all three state
setters and is then torn down again when `age > gcTime` (note the
teardown does not reset `cacheAge`); the returned data is
`isFromCache && cachedData ? cachedData : query.data` and the returned
loading flag is `isFromCache ? false : query.isLoading`. -/
def useCachedQueryMount (cached : Option RawPayload) (timestamp : Option RawTimestamp)
    (now : Int) (gcTime : Int) (queryData : Option JSValue)
    (queryIsLoading queryIsError : Bool) : MountResult :=
  let eff : Bool × Option JSValue × Option Int × Bool :=
    match cached, timestamp with
    | some c, some t =>
      if c.nonempty && t.nonempty then
        match c.parsed with
        | .error _ => (false, none, none, false)
        | .ok v =>
          match t.parsedInt with
          | some ts =>
            let age := now - ts
            if age > gcTime then (false, none, some age, false)
            else (true, some v, some age, true)
          | none => (true, some v, none, true)
      else (true, none, none, false)
    | _, _ => (true, none, none, false)
  let entryKept := eff.1
  let cachedData := eff.2.1
  let cacheAge := eff.2.2.1
  let isFromCache := eff.2.2.2
  let dataShown := if isFromCache && stateTruthy cachedData then cachedData else queryData
  let isLoadingShown := if isFromCache then false else queryIsLoading
  ⟨entryKept, cachedData, cacheAge, isFromCache, dataShown, isLoadingShown, queryIsError⟩

/-! ## Helper lemmas about the store -/

/-- Keys of a store. -/
def storeKeys (st : Store) : List String := st.map Prod.fst

/-- Number of rows carrying a given key. -/
def countKey (st : Store) (cacheKey : String) : Nat :=
  st.countP (fun p => p.1 == cacheKey)

theorem find_map_overwrite (st : Store) (k : String) (e : CacheEntry)
    (h : st.any (fun p => p.1 == k) = true) :
    (st.map (fun p => if p.1 == k then (k, e) else p)).find? (fun p => p.1 == k)
      = some (k, e) := by
  induction st with
  | nil => simp at h
  | cons hd tl ih =>
    simp only [List.map_cons]
    by_cases hh : (hd.1 == k) = true
    · rw [if_pos hh]
      exact List.find?_cons_of_pos _ (by simp)
    · rw [if_neg hh]
      have htl : tl.any (fun p => p.1 == k) = true := by
        simp only [List.any_cons, hh, Bool.false_or] at h
        exact h
      rw [List.find?_cons_of_neg _ (by simp [hh]), ih htl]

theorem findEntry_upsert_self (st : Store) (k : String) (e : CacheEntry) :
    findEntry (upsert st k e) k = some e := by
  unfold findEntry upsert
  by_cases h : st.any (fun p => p.1 == k) = true
  · rw [if_pos h, find_map_overwrite st k e h]
    rfl
  · rw [if_neg h]
    have hnone : st.find? (fun p => p.1 == k) = none := by
      rw [List.find?_eq_none]
      intro p hp hpk
      exact h (List.any_eq_true.mpr ⟨p, hp, hpk⟩)
    rw [List.find?_append, hnone, Option.none_or]
    simp [List.find?]

theorem find_map_overwrite_other (st : Store) (k k' : String) (e : CacheEntry)
    (hkk : (k == k') = false) :
    (st.map (fun p => if p.1 == k then (k, e) else p)).find? (fun p => p.1 == k')
      = st.find? (fun p => p.1 == k') := by
  induction st with
  | nil => rfl
  | cons hd tl ih =>
    simp only [List.map_cons]
    by_cases hh : (hd.1 == k) = true
    · have hk : hd.1 = k := by simpa using hh
      rw [if_pos hh]
      simp only [List.find?_cons, hk, hkk]
      exact ih
    · rw [if_neg hh]
      simp only [List.find?_cons]
      cases hp : (hd.1 == k')
      · simp only [hp]
        exact ih
      · simp only [hp]

theorem findEntry_upsert_other (st : Store) (k k' : String) (e : CacheEntry)
    (hne : k' ≠ k) :
    findEntry (upsert st k e) k' = findEntry st k' := by
  have hkk : (k == k') = false := beq_eq_false_iff_ne.mpr (Ne.symm hne)
  unfold findEntry upsert
  by_cases h : st.any (fun p => p.1 == k) = true
  · rw [if_pos h, find_map_overwrite_other st k k' e hkk]
  · rw [if_neg h, List.find?_append]
    simp [List.find?_singleton, hkk]

theorem find_filter_of_keep {α : Type} (l : List α) (pr q : α → Bool)
    (h : ∀ a, pr a = true → q a = true) :
    (l.filter q).find? pr = l.find? pr := by
  induction l with
  | nil => rfl
  | cons hd tl ih =>
    by_cases hq : q hd = true
    · rw [List.filter_cons_of_pos hq]
      by_cases hp : pr hd = true
      · rw [List.find?_cons_of_pos _ hp, List.find?_cons_of_pos _ hp]
      · rw [List.find?_cons_of_neg _ hp, List.find?_cons_of_neg _ hp, ih]
    · have hp : ¬ pr hd = true := fun hc => hq (h hd hc)
      rw [List.filter_cons_of_neg hq, List.find?_cons_of_neg _ hp, ih]

theorem findEntry_mem (st : Store) (k : String) (e : CacheEntry)
    (h : findEntry st k = some e) : (k, e) ∈ st := by
  unfold findEntry at h
  rw [Option.map_eq_some'] at h
  obtain ⟨p, hp, hsnd⟩ := h
  have hpred := List.find?_some hp
  have hk : p.1 = k := by simpa using hpred
  have hpe : p = (k, e) := by
    cases p
    simp_all
  exact hpe ▸ List.mem_of_find?_eq_some hp

/-! ## Claims -/

/-- C7: `isCacheExpired(k)` is true exactly when no entry exists for `k`
or the current time is strictly after the entry's `expiresAt`; for a key
with no entry `getCachedData(k)` is absent (`null`), and on a present
key `getCachedData` returns the stored payload regardless of freshness
(the embedding of `getCachedData` is a pure read of the store, so it has
no side effects by construction). -/
theorem isExpired_getCachedData_spec (st : Store) (k : String) (now : Nat) :
    (isCacheExpired false st k now = true ↔
      findEntry st k = none ∨ ∃ e, findEntry st k = some e ∧ now > e.expiresAt)
    ∧ (findEntry st k = none → getCachedData false st k = JSValue.null)
    ∧ (∀ e, findEntry st k = some e → getCachedData false st k = e.cacheData) := by
  refine ⟨?_, ?_, ?_⟩
  · cases h : findEntry st k with
    | none => simp [isCacheExpired, h]
    | some e => simp [isCacheExpired, h]
  · intro h
    simp [getCachedData, h]
  · intro e h
    simp [getCachedData, h]

/-- Witness for C7 at a concrete cold key and a concrete stale entry. -/
theorem isExpired_getCachedData_spec_witness :
    isCacheExpired false [] "admin" 0 = true
    ∧ getCachedData false [] "admin" = JSValue.null
    ∧ getCachedData false [("u", ⟨JSValue.number 4, 0, 10⟩)] "u" = JSValue.number 4 :=
  ⟨(isExpired_getCachedData_spec [] "admin" 0).1.mpr (Or.inl rfl),
   (isExpired_getCachedData_spec [] "admin" 0).2.1 rfl,
   (isExpired_getCachedData_spec [("u", ⟨JSValue.number 4, 0, 10⟩)] "u" 99).2.2 _ rfl⟩

/-- C8: `clearCache(k)` deletes exactly the rows keyed `k`: afterwards no
entry for `k` is found, every row with a different key is untouched (both
by lookup and by membership), deleting an absent key leaves the store
unchanged without error, and the operation is idempotent. -/
theorem clearCache_spec (st : Store) (k : String) :
    findEntry (clearCache false st k) k = none
    ∧ (∀ k', k' ≠ k → findEntry (clearCache false st k) k' = findEntry st k')
    ∧ (∀ p, p ∈ clearCache false st k ↔ p ∈ st ∧ p.1 ≠ k)
    ∧ (findEntry st k = none → clearCache false st k = st)
    ∧ clearCache false (clearCache false st k) k = clearCache false st k := by
  refine ⟨?_, ?_, ?_, ?_, ?_⟩
  · have h : (st.filter (fun p => !(p.1 == k))).find? (fun p => p.1 == k) = none := by
      rw [List.find?_eq_none]
      intro p hp hpk
      have := (List.mem_filter.mp hp).2
      rw [hpk] at this
      simp at this
    simp [clearCache, findEntry, h]
  · intro k' hne
    simp only [clearCache, if_neg (by simp : ¬ false = true), findEntry]
    rw [find_filter_of_keep]
    intro p hpk
    have hk : p.1 = k' := by simpa using hpk
    simp [hk, hne]
  · intro p
    simp only [clearCache, if_neg (by simp : ¬ false = true), List.mem_filter]
    constructor
    · rintro ⟨h1, h2⟩
      refine ⟨h1, ?_⟩
      simpa using h2
    · rintro ⟨h1, h2⟩
      refine ⟨h1, ?_⟩
      simpa using h2
  · intro h
    simp only [clearCache, if_neg (by simp : ¬ false = true)]
    rw [List.filter_eq_self]
    intro p hp
    unfold findEntry at h
    rw [Option.map_eq_none'] at h
    rw [List.find?_eq_none] at h
    simpa using h p hp
  · simp [clearCache, List.filter_filter]

/-- Witness for C8 on a concrete two-row store and a concrete absent key. -/
theorem clearCache_spec_witness :
    findEntry (clearCache false [("a", ⟨JSValue.number 1, 0, 5⟩), ("b", ⟨JSValue.number 2, 0, 5⟩)] "a") "b"
      = some ⟨JSValue.number 2, 0, 5⟩
    ∧ clearCache false [("a", ⟨JSValue.number 1, 0, 5⟩)] "zzz" = [("a", ⟨JSValue.number 1, 0, 5⟩)] := by
  constructor
  · rw [(clearCache_spec [("a", ⟨JSValue.number 1, 0, 5⟩), ("b", ⟨JSValue.number 2, 0, 5⟩)] "a").2.1
      "b" (by decide)]
    rfl
  · exact (clearCache_spec [("a", ⟨JSValue.number 1, 0, 5⟩)] "zzz").2.2.2.1 rfl

/-- C6: `clearExpiredCache` deletes exactly the rows whose `expiresAt`
is strictly before `now`: a row survives iff it was present and not yet
past expiry, the surviving rows are a sublist of the original store
(every other entry is left unchanged, in place), the returned count is
the number of deleted rows, and count plus survivors add up to the
original size. -/
theorem clearExpiredCache_spec (st : Store) (now : Nat) :
    (∀ p, p ∈ (clearExpiredCache false st now).1 ↔ p ∈ st ∧ ¬ p.2.expiresAt < now)
    ∧ (clearExpiredCache false st now).1.Sublist st
    ∧ (clearExpiredCache false st now).2 = st.countP (fun p => decide (p.2.expiresAt < now))
    ∧ (clearExpiredCache false st now).1.length + (clearExpiredCache false st now).2
        = st.length := by
  refine ⟨?_, ?_, ?_, ?_⟩
  · intro p
    simp [clearExpiredCache, List.mem_filter]
  · simp only [clearExpiredCache, if_neg (by simp : ¬ false = true)]
    exact List.filter_sublist st
  · simp only [clearExpiredCache, if_neg (by simp : ¬ false = true)]
    exact (List.countP_eq_length_filter _ st).symm
  · simp only [clearExpiredCache, if_neg (by simp : ¬ false = true)]
    rw [Nat.add_comm]
    exact (@List.length_eq_length_filter_add (String × CacheEntry) st
      (fun p => decide (p.2.expiresAt < now))).symm

/-- C5: every storage fault is absorbed where it occurs: a failing read
makes `getCachedData` return absent, a failing write leaves the store
unchanged while `setCachedData` returns normally, a failing expiry check
makes `isCacheExpired` return true, failing deletes leave the store
unchanged with `clearExpiredCache` reporting 0, and on the cold path of
`getDataWithCache` a write fault still lets the freshly produced value
flow to the caller. All operations are total functions of the fault
flag, so no fault propagates out of any cache-service operation. -/
theorem storageFault_spec :
    (∀ st k, getCachedData true st k = JSValue.null)
    ∧ (∀ st k v d now, setCachedData true st k v d now = st)
    ∧ (∀ st k now, isCacheExpired true st k now = true)
    ∧ (∀ st now, clearExpiredCache true st now = (st, 0))
    ∧ (∀ st k, clearCache true st k = st)
    ∧ (∀ st, clearAllCache true st = st)
    ∧ (∀ st k fresh now, findEntry st k = none →
        (getDataWithCache false false true st k (.ok fresh) now).result = .ok (fresh, false)
        ∧ (getDataWithCache false false true st k (.ok fresh) now).store = st) := by
  refine ⟨fun st k => rfl, fun st k v d now => rfl, fun st k now => rfl,
    fun st now => rfl, fun st k => rfl, fun st => rfl, ?_⟩
  intro st k fresh now h
  simp [getDataWithCache, getCachedData, setCachedData, h, truthy]

/-- Witness for C5 at a concrete cold key under a write fault. -/
theorem storageFault_spec_witness :
    (getDataWithCache false false true [] "admin" (.ok (JSValue.number 2)) 5).result
      = .ok (JSValue.number 2, false)
    ∧ (getDataWithCache false false true [] "admin" (.ok (JSValue.number 2)) 5).store = [] :=
  storageFault_spec.2.2.2.2.2.2 [] "admin" (JSValue.number 2) 5 rfl

/-- C10: the cleanup sweep and the expiry check agree on the boundary:
a stored row survives `clearExpiredCache` iff `isCacheExpired` is false
for its key at the same instant (both use a strict comparison), and a
row whose `expiresAt` equals the current instant is neither reported
expired nor swept. -/
theorem sweep_agrees_with_isExpired (st : Store) (k : String) (e : CacheEntry) (now : Nat)
    (h : findEntry st k = some e) :
    ((k, e) ∈ (clearExpiredCache false st now).1 ↔ isCacheExpired false st k now = false)
    ∧ (e.expiresAt = now →
        (k, e) ∈ (clearExpiredCache false st now).1
        ∧ isCacheExpired false st k now = false) := by
  have hmem : (k, e) ∈ st := findEntry_mem st k e h
  have hexp : isCacheExpired false st k now = decide (now > e.expiresAt) := by
    simp [isCacheExpired, h]
  constructor
  · rw [hexp]
    simp only [clearExpiredCache, if_neg (by simp : ¬ false = true), List.mem_filter]
    constructor
    · rintro ⟨_, hb⟩
      simpa using hb
    · intro hb
      refine ⟨hmem, ?_⟩
      simpa using hb
  · intro hb
    have h1 : isCacheExpired false st k now = false := by
      rw [hexp]
      simp [hb]
    have h2 : (k, e) ∈ (clearExpiredCache false st now).1 := by
      simp only [clearExpiredCache, if_neg (by simp : ¬ false = true), List.mem_filter]
      refine ⟨hmem, ?_⟩
      simp [hb]
    exact ⟨h2, h1⟩

/-- Witness for C10 at a concrete store holding one row that expires at
the current instant. -/
theorem sweep_agrees_with_isExpired_witness :
    ("a", (⟨JSValue.number 1, 0, 50⟩ : CacheEntry))
        ∈ (clearExpiredCache false [("a", ⟨JSValue.number 1, 0, 50⟩)] 50).1
    ∧ isCacheExpired false [("a", ⟨JSValue.number 1, 0, 50⟩)] "a" 50 = false :=
  (sweep_agrees_with_isExpired [("a", ⟨JSValue.number 1, 0, 50⟩)] "a"
    ⟨JSValue.number 1, 0, 50⟩ 50 rfl).2 rfl

/-- C2: on a key with no stored row, `getDataWithCache` invokes the
producer exactly once and synchronously (no background refresh); a
successful producer's value is stored under the key with the default TTL
(other keys untouched) and returned with `fromCache = false`; a failing
producer propagates its error to the caller and leaves the store — in
particular the key — without an entry. -/
theorem getDataWithCache_cold_spec (st : Store) (k : String) (now : Nat)
    (producer : Except String JSValue) (h : findEntry st k = none) :
    (getDataWithCache false false false st k producer now).syncCalls = 1
    ∧ (getDataWithCache false false false st k producer now).bgCalls = 0
    ∧ (∀ v, producer = .ok v →
        (getDataWithCache false false false st k producer now).result = .ok (v, false)
        ∧ findEntry (getDataWithCache false false false st k producer now).store k
            = some ⟨v, now, now + DEFAULT_CACHE_DURATION⟩
        ∧ (∀ k', k' ≠ k →
            findEntry (getDataWithCache false false false st k producer now).store k'
              = findEntry st k'))
    ∧ (∀ msg, producer = .error msg →
        (getDataWithCache false false false st k producer now).result = .error msg
        ∧ (getDataWithCache false false false st k producer now).store = st
        ∧ findEntry (getDataWithCache false false false st k producer now).store k = none) := by
  have hred : getDataWithCache false false false st k producer now =
      match producer with
      | .ok fresh => ⟨.ok (fresh, false), setCachedData false st k fresh none now, 1, 0⟩
      | .error e => ⟨.error e, st, 1, 0⟩ := by
    simp [getDataWithCache, getCachedData, h, truthy]
  refine ⟨?_, ?_, ?_, ?_⟩
  · rw [hred]; cases producer <;> rfl
  · rw [hred]; cases producer <;> rfl
  · intro v hv
    subst hv
    rw [hred]
    refine ⟨rfl, ?_, ?_⟩
    · simpa [setCachedData, effectiveDuration] using
        findEntry_upsert_self st k ⟨v, now, now + DEFAULT_CACHE_DURATION⟩
    · intro k' hne
      simpa [setCachedData, effectiveDuration] using
        findEntry_upsert_other st k k' ⟨v, now, now + DEFAULT_CACHE_DURATION⟩ hne
  · intro msg hmsg
    subst hmsg
    rw [hred]
    exact ⟨rfl, rfl, h⟩

/-- Witness for C2 at a concrete cold key, one succeeding and one
failing producer. -/
theorem getDataWithCache_cold_spec_witness :
    (getDataWithCache false false false [] "admin" (.ok (JSValue.number 3)) 10).result
      = .ok (JSValue.number 3, false)
    ∧ findEntry (getDataWithCache false false false [] "admin" (.ok (JSValue.number 3)) 10).store
        "admin" = some ⟨JSValue.number 3, 10, 10 + DEFAULT_CACHE_DURATION⟩
    ∧ (getDataWithCache false false false [] "admin" (.error "boom") 10).result = .error "boom"
    ∧ (getDataWithCache false false false [] "admin" (.error "boom") 10).store = [] := by
  refine ⟨?_, ?_, ?_, ?_⟩
  · exact (((getDataWithCache_cold_spec [] "admin" 10 (.ok (JSValue.number 3)) rfl).2.2.1)
      (JSValue.number 3) rfl).1
  · exact (((getDataWithCache_cold_spec [] "admin" 10 (.ok (JSValue.number 3)) rfl).2.2.1)
      (JSValue.number 3) rfl).2.1
  · exact (((getDataWithCache_cold_spec [] "admin" 10 (.error "boom") rfl).2.2.2)
      "boom" rfl).1
  · exact (((getDataWithCache_cold_spec [] "admin" 10 (.error "boom") rfl).2.2.2)
      "boom" rfl).2.1

/-- C1 counterexample: a key with a stored entry whose payload is the
(perfectly storable) value `false`. The claim says a stored entry is
always returned with `fromCache = true` and the producer is never
invoked synchronously, "for every stored payload value, whatever that
value is" — but `getDataWithCache` tests the payload with JavaScript
truthiness (`if (cachedData)`), so the falsy stored payload is treated
as a miss: the producer runs synchronously and the call reports
`fromCache = false`. -/
theorem getDataWithCache_stored_falsy_counterexample :
    findEntry [("admin", ⟨JSValue.boolean false, 0, 2000000000000⟩)] "admin"
      = some ⟨JSValue.boolean false, 0, 2000000000000⟩
    ∧ (getDataWithCache false false false
        [("admin", ⟨JSValue.boolean false, 0, 2000000000000⟩)]
        "admin" (.ok (JSValue.number 7)) 1000).syncCalls = 1
    ∧ (getDataWithCache false false false
        [("admin", ⟨JSValue.boolean false, 0, 2000000000000⟩)]
        "admin" (.ok (JSValue.number 7)) 1000).result = .ok (JSValue.number 7, false) :=
  ⟨rfl, rfl, rfl⟩

/-- C1 (amended): for every key whose stored entry has a *truthy*
payload, `getDataWithCache` returns the stored payload immediately with
`fromCache = true` and never invokes the producer synchronously. If the
entry is also expired, the producer runs exactly once as a detached
background refresh: on success its result is written back under the key
with the default TTL (other keys untouched), on failure the store is
unchanged and the caller of `getDataWithCache` still receives the
stored payload — the refresh outcome reaches no caller (logging only).
A stored falsy payload (`null`, `false`, `0`, `""`) is instead treated
as a cache miss. -/
theorem getDataWithCache_stale_hit_spec (st : Store) (k : String) (e : CacheEntry)
    (producer : Except String JSValue) (now : Nat)
    (h : findEntry st k = some e) (ht : truthy e.cacheData = true) :
    (getDataWithCache false false false st k producer now).result = .ok (e.cacheData, true)
    ∧ (getDataWithCache false false false st k producer now).syncCalls = 0
    ∧ (now > e.expiresAt →
        (getDataWithCache false false false st k producer now).bgCalls = 1
        ∧ (∀ v, producer = .ok v →
            findEntry (getDataWithCache false false false st k producer now).store k
              = some ⟨v, now, now + DEFAULT_CACHE_DURATION⟩
            ∧ (∀ k', k' ≠ k →
                findEntry (getDataWithCache false false false st k producer now).store k'
                  = findEntry st k'))
        ∧ (∀ msg, producer = .error msg →
            (getDataWithCache false false false st k producer now).store = st))
    ∧ (¬ now > e.expiresAt →
        (getDataWithCache false false false st k producer now).bgCalls = 0
        ∧ (getDataWithCache false false false st k producer now).store = st) := by
  by_cases hexp : now > e.expiresAt
  · have hred : getDataWithCache false false false st k producer now =
        ⟨.ok (e.cacheData, true),
         refreshCacheInBackground false st k producer now, 0, 1⟩ := by
      simp [getDataWithCache, getCachedData, isCacheExpired, h, ht, hexp]
    refine ⟨by rw [hred], by rw [hred], fun _ => ⟨by rw [hred], ?_, ?_⟩,
      fun hc => absurd hexp hc⟩
    · intro v hv
      subst hv
      rw [hred]
      constructor
      · simpa [refreshCacheInBackground, setCachedData, effectiveDuration] using
          findEntry_upsert_self st k ⟨v, now, now + DEFAULT_CACHE_DURATION⟩
      · intro k' hne
        simpa [refreshCacheInBackground, setCachedData, effectiveDuration] using
          findEntry_upsert_other st k k' ⟨v, now, now + DEFAULT_CACHE_DURATION⟩ hne
    · intro msg hmsg
      subst hmsg
      rw [hred]
      rfl
  · have hred : getDataWithCache false false false st k producer now =
        ⟨.ok (e.cacheData, true), st, 0, 0⟩ := by
      simp [getDataWithCache, getCachedData, isCacheExpired, h, ht, hexp]
    exact ⟨by rw [hred], by rw [hred], fun hc => absurd hc hexp,
      fun _ => ⟨by rw [hred], by rw [hred]⟩⟩

/-- Witness for C1 (amended) at a concrete expired truthy entry with a
succeeding producer. -/
theorem getDataWithCache_stale_hit_spec_witness :
    (getDataWithCache false false false [("u", ⟨JSValue.number 5, 0, 100⟩)] "u"
        (.ok (JSValue.number 6)) 200).result = .ok (JSValue.number 5, true)
    ∧ (getDataWithCache false false false [("u", ⟨JSValue.number 5, 0, 100⟩)] "u"
        (.ok (JSValue.number 6)) 200).syncCalls = 0
    ∧ findEntry (getDataWithCache false false false [("u", ⟨JSValue.number 5, 0, 100⟩)] "u"
        (.ok (JSValue.number 6)) 200).store "u"
      = some ⟨JSValue.number 6, 200, 200 + DEFAULT_CACHE_DURATION⟩ := by
  have hmain := getDataWithCache_stale_hit_spec [("u", ⟨JSValue.number 5, 0, 100⟩)] "u"
    ⟨JSValue.number 5, 0, 100⟩ (.ok (JSValue.number 6)) 200 rfl rfl
  exact ⟨hmain.1, hmain.2.1,
    ((hmain.2.2.1 (by decide)).2.1 (JSValue.number 6) rfl).1⟩

theorem countKey_eq_count (st : Store) (k : String) :
    countKey st k = (storeKeys st).count k := by
  unfold countKey storeKeys List.count
  rw [List.countP_map]
  rfl

theorem countKey_upsert (st : Store) (k : String) (e : CacheEntry)
    (hnd : (storeKeys st).Nodup) : countKey (upsert st k e) k = 1 := by
  unfold upsert
  by_cases h : st.any (fun p => p.1 == k) = true
  · rw [if_pos h]
    have hsame : countKey (st.map (fun p => if p.1 == k then (k, e) else p)) k
        = countKey st k := by
      unfold countKey
      rw [List.countP_map]
      apply List.countP_congr
      intro p _
      by_cases hp : (p.1 == k) = true
      · simp [Function.comp, hp]
      · simp [Function.comp, hp]
    rw [hsame, countKey_eq_count]
    have hmem : k ∈ storeKeys st := by
      obtain ⟨p, hp, hpk⟩ := List.any_eq_true.mp h
      have : p.1 = k := by simpa using hpk
      exact this ▸ List.mem_map_of_mem Prod.fst hp
    have hle := List.nodup_iff_count_le_one.mp hnd k
    have hpos := List.count_pos_iff.mpr hmem
    omega
  · rw [if_neg h]
    unfold countKey
    rw [List.countP_append]
    have h0 : st.countP (fun p => p.1 == k) = 0 := by
      rw [List.countP_eq_zero]
      intro p hp hpk
      exact h (List.any_eq_true.mpr ⟨p, hp, hpk⟩)
    simp [h0, List.countP_cons]

/-- C3 counterexample: `setCachedData` with an explicitly supplied
`ttl = 0` at `now = 100`. The claim says the stored `expiresAt` is
`now + ttl = 100` for every caller-supplied ttl including 0, but the
source computes `customDuration || DEFAULT_CACHE_DURATION` and `0` is
falsy in JavaScript, so the entry is stored with the 15-minute default:
`expiresAt = 100 + 900000 ≠ 100`. -/
theorem setCachedData_ttl_zero_counterexample :
    findEntry (setCachedData false [] "k" (JSValue.number 1) (some 0) 100) "k"
      = some ⟨JSValue.number 1, 100, 100 + DEFAULT_CACHE_DURATION⟩
    ∧ 100 + DEFAULT_CACHE_DURATION ≠ 100 + 0 :=
  ⟨rfl, by decide⟩

/-- C3 (amended): `setCachedData(k, v, ttl)` upserts a single entry for
`k` (exactly one row for `k` remains when the store's keys were unique)
with `expiresAt = now + ttl` for every *non-zero* supplied ttl; when ttl
is omitted — or supplied as 0, which the `||` default makes
indistinguishable from omission — `expiresAt = now + 15 minutes`. Other
keys are untouched; afterwards `getCachedData(k)` returns `v` and
`isCacheExpired(k)` is false at every instant up to and including the
entry's expiry. -/
theorem setCachedData_spec (st : Store) (k : String) (v : JSValue)
    (ttl : Option Nat) (now : Nat) :
    findEntry (setCachedData false st k v ttl now) k
      = some ⟨v, now, now + effectiveDuration ttl⟩
    ∧ (∀ d, d ≠ 0 → effectiveDuration (some d) = d)
    ∧ effectiveDuration none = DEFAULT_CACHE_DURATION
    ∧ effectiveDuration (some 0) = DEFAULT_CACHE_DURATION
    ∧ (∀ k', k' ≠ k → findEntry (setCachedData false st k v ttl now) k' = findEntry st k')
    ∧ ((storeKeys st).Nodup → countKey (setCachedData false st k v ttl now) k = 1)
    ∧ getCachedData false (setCachedData false st k v ttl now) k = v
    ∧ (∀ t, t ≤ now + effectiveDuration ttl →
        isCacheExpired false (setCachedData false st k v ttl now) k t = false) := by
  have hself : findEntry (setCachedData false st k v ttl now) k
      = some ⟨v, now, now + effectiveDuration ttl⟩ := by
    simpa [setCachedData] using
      findEntry_upsert_self st k ⟨v, now, now + effectiveDuration ttl⟩
  refine ⟨hself, ?_, rfl, rfl, ?_, ?_, ?_, ?_⟩
  · intro d hd
    simp [effectiveDuration, hd]
  · intro k' hne
    simpa [setCachedData] using
      findEntry_upsert_other st k k' ⟨v, now, now + effectiveDuration ttl⟩ hne
  · intro hnd
    simpa [setCachedData] using
      countKey_upsert st k ⟨v, now, now + effectiveDuration ttl⟩ hnd
  · simp [getCachedData, hself]
  · intro t hle
    simp [isCacheExpired, hself]
    omega

/-- Witness for C3 (amended) at a concrete store, key and non-zero ttl. -/
theorem setCachedData_spec_witness :
    findEntry (setCachedData false [] "k" (JSValue.number 2) (some 500) 100) "k"
      = some ⟨JSValue.number 2, 100, 100 + effectiveDuration (some 500)⟩
    ∧ effectiveDuration (some 500) = 500
    ∧ countKey (setCachedData false [] "k" (JSValue.number 2) (some 500) 100) "k" = 1
    ∧ getCachedData false (setCachedData false [] "k" (JSValue.number 2) (some 500) 100) "k"
        = JSValue.number 2
    ∧ isCacheExpired false (setCachedData false [] "k" (JSValue.number 2) (some 500) 100) "k" 600
        = false := by
  have hmain := setCachedData_spec [] "k" (JSValue.number 2) (some 500) 100
  exact ⟨hmain.1, hmain.2.1 500 (by decide), hmain.2.2.2.2.2.1 (by decide),
    hmain.2.2.2.2.2.2.1, hmain.2.2.2.2.2.2.2 600 (by decide)⟩

theorem warmUpStudents_other (f : Nat → Except String JSValue) (now : Nat)
    (ids : List Nat) (key : String) :
    ∀ st : Store, key ∉ ids.map studentKey →
      findEntry (warmUpStudents f now st ids) key = findEntry st key := by
  induction ids with
  | nil => intro st _; rfl
  | cons hd tl ih =>
    intro st hnot
    have hne : key ≠ studentKey hd := by
      intro hc
      exact hnot (by simp [hc])
    have hnott : key ∉ tl.map studentKey := by
      intro hc
      exact hnot (by simp [hc])
    simp only [warmUpStudents]
    split
    next msg heq => exact ih st hnott
    next d2 heq =>
      split
      next htr =>
        rw [ih _ hnott]
        simpa [setCachedData] using findEntry_upsert_other st (studentKey hd) key
          ⟨d2, now, now + DEFAULT_CACHE_DURATION⟩ hne
      next htr => exact ih st hnott

theorem warmUpStudents_mem (f : Nat → Except String JSValue) (now : Nat)
    (ids : List Nat) (id : Nat) (d : JSValue)
    (hok : f id = .ok d) (ht : truthy d = true) :
    ∀ st : Store, id ∈ ids → (ids.map studentKey).Nodup →
      findEntry (warmUpStudents f now st ids) (studentKey id)
        = some ⟨d, now, now + DEFAULT_CACHE_DURATION⟩ := by
  induction ids with
  | nil =>
    intro st hmem _
    cases hmem
  | cons hd tl ih =>
    intro st hmem hnd
    simp only [List.map_cons, List.nodup_cons] at hnd
    obtain ⟨hni, hndtl⟩ := hnd
    rcases List.mem_cons.mp hmem with heq | htl
    · subst heq
      simp only [warmUpStudents, hok]
      rw [if_pos ht, warmUpStudents_other f now tl (studentKey id) _ hni]
      simpa [setCachedData] using
        findEntry_upsert_self st (studentKey id) ⟨d, now, now + DEFAULT_CACHE_DURATION⟩
    · simp only [warmUpStudents]
      split
      next msg heq => exact ih st htl hndtl
      next d2 heq =>
        split
        next htr => exact ih _ htl hndtl
        next htr => exact ih st htl hndtl

/-- C4 counterexample: one student whose producer does *not* fail — it
resolves successfully to `null` (as `getStudentDashboard` does for a
missing dashboard). The claim says every non-failing entity in the
selected subset gets its entry written, but the source guards the write
with `if (studentData)`, so the falsy result is skipped and no entry is
written for the student's key even though no producer failed. -/
theorem warmUpCache_nonfailing_skipped_counterexample :
    findEntry (warmUpCache (.ok (JSValue.boolean true)) (.ok (JSValue.boolean true))
        (.ok (JSValue.boolean true)) (.ok (JSValue.boolean true)) (.ok [7])
        (fun _ => .ok JSValue.null) false [] 0) (studentKey 7) = none :=
  rfl

/-- C4 (amended): `warmUpCache` never raises an error to its caller (the
embedding is a total function of the producers' outcomes: fixed-producer
failures stop warm-up early, per-student failures are caught inside the
loop), and the failure of any individual student producer does not
prevent warm-up of the rest: for every entity list and every pattern of
failing student producers, every student in the selected subset whose
producer succeeds *with a truthy payload* still gets its entry written
with the default TTL; a producer that succeeds with a falsy payload is
skipped without error. The selected subset is the first N students of
the list in its given order, with cap N = `PRODUCTION_WARMUP_LIMIT` =
20 in production mode and a larger cap of 50 in development mode. -/
theorem warmUpCache_spec (a u b27 b28 : JSValue) (students : List Nat)
    (f : Nat → Except String JSValue) (isProduction : Bool) (st : Store) (now : Nat)
    (hnd : ((students.take (if isProduction then PRODUCTION_WARMUP_LIMIT else 50)).map
        studentKey).Nodup) :
    PRODUCTION_WARMUP_LIMIT = 20
    ∧ PRODUCTION_WARMUP_LIMIT < 50
    ∧ (∀ id, id ∈ students.take (if isProduction then PRODUCTION_WARMUP_LIMIT else 50) →
        ∀ d, f id = .ok d → truthy d = true →
          findEntry (warmUpCache (.ok a) (.ok u) (.ok b27) (.ok b28) (.ok students) f
              isProduction st now) (studentKey id)
            = some ⟨d, now, now + DEFAULT_CACHE_DURATION⟩) := by
  refine ⟨rfl, by decide, ?_⟩
  intro id hid d hok ht
  exact warmUpStudents_mem f now
    (students.take (if isProduction then PRODUCTION_WARMUP_LIMIT else 50)) id d hok ht
    _ hid hnd

/-- Witness for C4 (amended): three students in development mode, the
middle producer failing; the other two still get their entries. -/
theorem warmUpCache_spec_witness :
    findEntry (warmUpCache (.ok (JSValue.boolean true)) (.ok (JSValue.boolean true))
        (.ok (JSValue.boolean true)) (.ok (JSValue.boolean true)) (.ok [1, 2, 3])
        (fun i => if i = 2 then .error "down" else .ok (JSValue.number (Int.ofNat i)))
        false [] 0) (studentKey 1)
      = some ⟨JSValue.number 1, 0, 0 + DEFAULT_CACHE_DURATION⟩
    ∧ findEntry (warmUpCache (.ok (JSValue.boolean true)) (.ok (JSValue.boolean true))
        (.ok (JSValue.boolean true)) (.ok (JSValue.boolean true)) (.ok [1, 2, 3])
        (fun i => if i = 2 then .error "down" else .ok (JSValue.number (Int.ofNat i)))
        false [] 0) (studentKey 3)
      = some ⟨JSValue.number 3, 0, 0 + DEFAULT_CACHE_DURATION⟩ := by
  have hmain := warmUpCache_spec (JSValue.boolean true) (JSValue.boolean true)
    (JSValue.boolean true) (JSValue.boolean true) [1, 2, 3]
    (fun i => if i = 2 then .error "down" else .ok (JSValue.number (Int.ofNat i)))
    false [] 0 (by decide)
  exact ⟨hmain.2.2 1 (by decide) (JSValue.number 1) rfl rfl,
    hmain.2.2 3 (by decide) (JSValue.number 3) rfl rfl⟩

/-- C9 counterexample: a mirror entry whose stored payload parses to the
falsy value `false`, with a valid timestamp and an age well within the
garbage-collection horizon. The claim says such an entry is exposed as
`data` with `isFromCache = true`; the mount does set
`isFromCache = true` (and the age), but the returned data is
`isFromCache && cachedData ? cachedData : query.data`, so the falsy
payload is *not* exposed — the hook falls back to the live query's data
(still absent at mount). -/
theorem useCachedQueryMount_falsy_counterexample :
    (useCachedQueryMount (some ⟨true, .ok (JSValue.boolean false)⟩) (some ⟨true, some 0⟩)
        1000 600000 none false false).isFromCache = true
    ∧ (useCachedQueryMount (some ⟨true, .ok (JSValue.boolean false)⟩) (some ⟨true, some 0⟩)
        1000 600000 none false false).cacheAge = some 1000
    ∧ (useCachedQueryMount (some ⟨true, .ok (JSValue.boolean false)⟩) (some ⟨true, some 0⟩)
        1000 600000 none false false).dataShown = none :=
  ⟨rfl, rfl, rfl⟩

/-- C9 (amended): on mount of the client cache mirror: a non-empty
stored payload that parses to a *truthy* value with a well-formed
timestamp within the garbage-collection horizon is exposed as data with
`isFromCache = true` together with its age (and no loading state); a
payload parsing to a falsy value within the horizon still sets the
cache indicator and age but the exposed data falls back to the live
query's; an entry older than the horizon is removed from the store and
not exposed as data; a non-empty unparseable payload is discarded,
treated as absent, and never surfaced to the UI as an error (the hook's
error flag stays whatever the live query reports); an empty stored
payload fails the `if (cached && timestamp)` truthiness guard and is
treated as absent without being removed. -/
theorem useCachedQueryMount_spec (now gcTime : Int) (qd : Option JSValue) (ql qe : Bool) :
    (∀ v ts, truthy v = true → now - ts ≤ gcTime →
      (useCachedQueryMount (some ⟨true, .ok v⟩) (some ⟨true, some ts⟩)
          now gcTime qd ql qe).dataShown = some v
      ∧ (useCachedQueryMount (some ⟨true, .ok v⟩) (some ⟨true, some ts⟩)
          now gcTime qd ql qe).isFromCache = true
      ∧ (useCachedQueryMount (some ⟨true, .ok v⟩) (some ⟨true, some ts⟩)
          now gcTime qd ql qe).cacheAge = some (now - ts)
      ∧ (useCachedQueryMount (some ⟨true, .ok v⟩) (some ⟨true, some ts⟩)
          now gcTime qd ql qe).entryKept = true
      ∧ (useCachedQueryMount (some ⟨true, .ok v⟩) (some ⟨true, some ts⟩)
          now gcTime qd ql qe).isLoadingShown = false)
    ∧ (∀ v ts, truthy v = false → now - ts ≤ gcTime →
      (useCachedQueryMount (some ⟨true, .ok v⟩) (some ⟨true, some ts⟩)
          now gcTime qd ql qe).isFromCache = true
      ∧ (useCachedQueryMount (some ⟨true, .ok v⟩) (some ⟨true, some ts⟩)
          now gcTime qd ql qe).dataShown = qd)
    ∧ (∀ v ts, now - ts > gcTime →
      (useCachedQueryMount (some ⟨true, .ok v⟩) (some ⟨true, some ts⟩)
          now gcTime qd ql qe).entryKept = false
      ∧ (useCachedQueryMount (some ⟨true, .ok v⟩) (some ⟨true, some ts⟩)
          now gcTime qd ql qe).isFromCache = false
      ∧ (useCachedQueryMount (some ⟨true, .ok v⟩) (some ⟨true, some ts⟩)
          now gcTime qd ql qe).cachedData = none
      ∧ (useCachedQueryMount (some ⟨true, .ok v⟩) (some ⟨true, some ts⟩)
          now gcTime qd ql qe).dataShown = qd)
    ∧ (∀ msg ts,
      (useCachedQueryMount (some ⟨true, .error msg⟩) (some ⟨true, some ts⟩)
          now gcTime qd ql qe).entryKept = false
      ∧ (useCachedQueryMount (some ⟨true, .error msg⟩) (some ⟨true, some ts⟩)
          now gcTime qd ql qe).isFromCache = false
      ∧ (useCachedQueryMount (some ⟨true, .error msg⟩) (some ⟨true, some ts⟩)
          now gcTime qd ql qe).dataShown = qd
      ∧ (useCachedQueryMount (some ⟨true, .error msg⟩) (some ⟨true, some ts⟩)
          now gcTime qd ql qe).isErrorShown = qe)
    ∧ (∀ pr ts,
      (useCachedQueryMount (some ⟨false, pr⟩) (some ⟨true, some ts⟩)
          now gcTime qd ql qe).entryKept = true
      ∧ (useCachedQueryMount (some ⟨false, pr⟩) (some ⟨true, some ts⟩)
          now gcTime qd ql qe).isFromCache = false
      ∧ (useCachedQueryMount (some ⟨false, pr⟩) (some ⟨true, some ts⟩)
          now gcTime qd ql qe).dataShown = qd) := by
  refine ⟨?_, ?_, ?_, ?_, ?_⟩
  · intro v ts ht hle
    simp [useCachedQueryMount, stateTruthy, ht, not_lt.mpr hle]
  · intro v ts ht hle
    simp [useCachedQueryMount, stateTruthy, ht, not_lt.mpr hle]
  · intro v ts hgt
    simp [useCachedQueryMount, stateTruthy, hgt]
  · intro msg ts
    simp [useCachedQueryMount, stateTruthy]
  · intro pr ts
    simp [useCachedQueryMount, stateTruthy]

/-- Witness for C9 (amended) at concrete young-truthy, old, corrupt and
empty mirror entries. -/
theorem useCachedQueryMount_spec_witness :
    (useCachedQueryMount (some ⟨true, .ok (JSValue.number 5)⟩) (some ⟨true, some 400⟩)
        1000 600000 none true false).dataShown = some (JSValue.number 5)
    ∧ (useCachedQueryMount (some ⟨true, .ok (JSValue.number 5)⟩) (some ⟨true, some 0⟩)
        1000 500 none true false).entryKept = false
    ∧ (useCachedQueryMount (some ⟨true, .error "bad"⟩) (some ⟨true, some 0⟩)
        1000 500 (some (JSValue.number 9)) true false).isErrorShown = false
    ∧ (useCachedQueryMount (some ⟨false, .error "empty"⟩) (some ⟨true, some 0⟩)
        1000 500 none true false).entryKept = true := by
  refine ⟨?_, ?_, ?_, ?_⟩
  · exact ((useCachedQueryMount_spec 1000 600000 none true false).1
      (JSValue.number 5) 400 rfl (by decide)).1
  · exact ((useCachedQueryMount_spec 1000 500 none true false).2.2.1
      (JSValue.number 5) 0 (by decide)).1
  · exact ((useCachedQueryMount_spec 1000 500 (some (JSValue.number 9)) true false).2.2.2.1
      "bad" 0).2.2.2
  · exact ((useCachedQueryMount_spec 1000 500 none true false).2.2.2.2
      (.error "empty") 0).1

/-- Witness for C6 at a concrete two-row store with one expired row. -/
theorem clearExpiredCache_spec_witness :
    ("b", (⟨JSValue.number 2, 0, 99⟩ : CacheEntry))
        ∈ (clearExpiredCache false
            [("a", ⟨JSValue.number 1, 0, 5⟩), ("b", ⟨JSValue.number 2, 0, 99⟩)] 50).1
    ∧ (clearExpiredCache false
        [("a", ⟨JSValue.number 1, 0, 5⟩), ("b", ⟨JSValue.number 2, 0, 99⟩)] 50).2 = 1 := by
  have hmain := clearExpiredCache_spec
    [("a", ⟨JSValue.number 1, 0, 5⟩), ("b", ⟨JSValue.number 2, 0, 99⟩)] 50
  refine ⟨(hmain.1 ("b", ⟨JSValue.number 2, 0, 99⟩)).mpr ⟨by simp, by decide⟩, ?_⟩
  rw [hmain.2.2.1]
  rfl
